import Mathlib

/-!
# Verification of the jsonapi-frontend-next path-resolution / proxy core

Shallow embedding of the security-sensitive core of the repository:

* `getSafeDrupalRedirectUrl` (app catch-all page, `src/unnamed/part_004`)
* the `Page` dispatch of the catch-all route (`src/unnamed/part_004`)
* the Mode-B proxy (`proxy`, `proxyToDrupal`, `isDrupalOnlyPath`,
  `rewriteLocationHeader`, header allow-lists) from the proxy file embedded
  in `src/demo/bootstrap.sh`
* `resolveFileUrl` (`src/lib/drupal/url.ts`)
* the caching-mode selection of `fetchResolver` (`src/lib/drupal/resolve.ts`),
  `fetchJsonApi` / `fetchView` (`src/lib/drupal/media.ts`) and
  `getDrupalAuthHeaders` (`src/unnamed/part_007`)

Platform primitives (the WHATWG `URL` class, `Headers`, JS string methods)
are modelled executably over `List Char` / `String`; the `URL` model is
restricted to authority-based special-scheme URLs (no userinfo, no IPv6, no
percent-decoding, no dot-segment normalization) which covers the inputs the
repository handles.  All definitions are computable so that concrete inputs
evaluate by `decide` / `rfl` / `simp`.
-/

namespace JsonapiFrontend

/-! ## JS string primitives, modelled over `List Char` -/

/-- Model of JS `String.prototype.startsWith`. -/
def jsStartsWith (s pre : String) : Bool :=
  pre.data.isPrefixOf s.data

/-- JS truthiness of a nullable string: `null`/`undefined` and `""` are falsy. -/
def jsTruthy (o : Option String) : Bool :=
  match o with
  | some s => s ≠ ""
  | none => false

/-- Model of the JS idiom `a || b` on a nullable string `a` with default `b`. -/
def jsOrStr (o : Option String) (d : String) : String :=
  match o with
  | some s => if s = "" then d else s
  | none => d

/-- Lower-case every character of a character list. -/
def toLowerList (l : List Char) : List Char := l.map Char.toLower

/-- Lower-case a string (models JS `toLowerCase` for ASCII). -/
def lowerStr (s : String) : String := String.mk (toLowerList s.data)

/-- Model of JS `String.prototype.trim` (strip leading/trailing whitespace). -/
def strTrim (s : String) : String :=
  String.mk (((s.data.dropWhile Char.isWhitespace).reverse.dropWhile Char.isWhitespace).reverse)

/-- Remove the first occurrence of a character
(models JS `replace(":", "")` with a string pattern, which replaces only
the first occurrence). -/
def removeFirst (c : Char) : List Char → List Char
  | [] => []
  | x :: xs => if x = c then xs else x :: removeFirst c xs

/-- Split a character list on a separator character
(models `String.prototype.split` / Lean's `String.splitOn` for a
single-character separator, used for the `'*'` wildcard). -/
def splitOnChar (sep : Char) : List Char → List (List Char)
  | [] => [[]]
  | c :: cs =>
    let r := splitOnChar sep cs
    if c = sep then [] :: r
    else
      match r with
      | [] => [[c]]
      | h :: t => (c :: h) :: t

/-- Decimal value of a digit list (the caller checks `isDigit` first). -/
def digitsToNat (l : List Char) : Nat :=
  l.foldl (fun a c => a * 10 + (c.toNat - '0'.toNat)) 0

/-! ## WHATWG `URL` model

Executable model of `new URL(...)` restricted to the subset the repository
exercises: absolute URLs of the special schemes with an authority and no
userinfo, plus origin-relative / path-relative / protocol-relative reference
resolution.  `origin`, `host`, `toString` follow the WHATWG getters. -/

structure URL where
  /-- scheme without the trailing colon (JS `protocol` is `scheme ++ ":"`) -/
  scheme : String
  /-- lower-cased host name, without port -/
  hostname : String
  /-- explicit port; `none` when absent or equal to the scheme default -/
  port : Option Nat
  /-- path, beginning with `/` -/
  pathname : String
  /-- query, `""` or beginning with `?` -/
  search : String
deriving Repr, DecidableEq

namespace URL

/-- Default ports of the WHATWG special schemes handled by the model. -/
def defaultPort (scheme : String) : Option Nat :=
  if scheme = "http" then some 80
  else if scheme = "https" then some 443
  else if scheme = "ws" then some 80
  else if scheme = "wss" then some 443
  else if scheme = "ftp" then some 21
  else none

/-- The special schemes accepted by the model parser. -/
def isSpecialScheme (scheme : String) : Bool :=
  scheme = "http" || scheme = "https" || scheme = "ws" || scheme = "wss" || scheme = "ftp"

/-- WHATWG `url.host`: hostname plus `":port"` when a non-default port is set. -/
def host (u : URL) : String :=
  match u.port with
  | none => u.hostname
  | some p => u.hostname ++ ":" ++ toString p

/-- WHATWG `url.origin` for authority-based special schemes. -/
def origin (u : URL) : String :=
  u.scheme ++ "://" ++ host u

/-- WHATWG `url.toString()` / `href` (no userinfo or fragment in the model). -/
def toStr (u : URL) : String :=
  origin u ++ u.pathname ++ u.search

def isSchemeChar (c : Char) : Bool :=
  c.isAlpha || c.isDigit || c = '+' || c = '-' || c = '.'

def isHostChar (c : Char) : Bool :=
  c.isAlpha || c.isDigit || c = '.' || c = '-' || c = '_'

/-- Parse the optional port part after `:`.
`none` result = parse failure; `some none` = empty port (default). -/
def parsePort (l : List Char) : Option (Option Nat) :=
  if l = [] then some none
  else if l.all Char.isDigit then
    let n := digitsToNat l
    if n ≤ 65535 then some (some n) else none
  else none

/-- Final step of the parser: a port equal to the scheme's default port is
normalized to "absent" (`new URL("https://h:443")` has an empty `port`). -/
def normalizePort (u : URL) : URL :=
  if u.port = defaultPort u.scheme then { u with port := none } else u

/-- Body of the model parser: everything except the default-port
normalization, which `parse` applies last. -/
def parseRaw (s : String) : Option URL :=
  let l := s.data
  let schemeChars := l.takeWhile isSchemeChar
  let schemeStr := String.mk (toLowerList schemeChars)
  match schemeChars.head? with
  | none => none
  | some c0 =>
    if ¬ c0.isAlpha then none
    else if ¬ isSpecialScheme schemeStr then none
    else
      match l.drop schemeChars.length with
      | ':' :: '/' :: '/' :: afterSlashes =>
        let authority := afterSlashes.takeWhile
          (fun c => ¬ (c = '/' || c = '?' || c = '#' || c = '\\'))
        let afterAuth := afterSlashes.drop authority.length
        if authority.contains '@' then none
        else
          let hostPart := authority.takeWhile (fun c => c ≠ ':')
          let portPart := (authority.drop hostPart.length).drop 1
          if hostPart = [] then none
          else if ¬ hostPart.all isHostChar then none
          else
            match parsePort (if authority.contains ':' then portPart else []) with
            | none => none
            | some rawPort =>
              let noFrag := afterAuth.takeWhile (fun c => c ≠ '#')
              let pathChars := (noFrag.takeWhile (fun c => c ≠ '?')).map
                (fun c => if c = '\\' then '/' else c)
              let searchChars := noFrag.drop ((noFrag.takeWhile (fun c => c ≠ '?')).length)
              some
                { scheme := schemeStr
                  hostname := String.mk (toLowerList hostPart)
                  port := rawPort
                  pathname := if pathChars = [] then "/" else String.mk pathChars
                  search :=
                    if searchChars = [] ∨ searchChars = ['?'] then ""
                    else String.mk searchChars }
      | _ => none

/-- Model of `new URL(s)` (absolute form).  Fails (`none`) where the real
constructor throws, and on inputs outside the modelled subset. -/
def parse (s : String) : Option URL :=
  (parseRaw s).map normalizePort

/-- The directory prefix of a path: everything up to and including the last
`/` (used for path-relative reference resolution). -/
def dirOf (p : List Char) : List Char :=
  (p.reverse.dropWhile (fun c => c ≠ '/')).reverse

/-- Resolve a reference string against an already-parsed base
(the relative half of `new URL(input, base)`). -/
def resolveRel (input : String) (base : URL) : Option URL :=
  match parse input with
  | some u => some u
  | none =>
    let l := input.data.takeWhile (fun c => c ≠ '#')
    if l = [] then some base
    else if ['/', '/'].isPrefixOf l then
      parse (base.scheme ++ ":" ++ String.mk l)
    else
      let pathChars := l.takeWhile (fun c => c ≠ '?')
      let searchChars := l.drop pathChars.length
      let search :=
        if searchChars = [] ∨ searchChars = ['?'] then ""
        else String.mk searchChars
      if pathChars = [] then some { base with search := search }
      else if pathChars.head? = some '/' then
        some { base with pathname := String.mk pathChars, search := search }
      else
        some { base with
                 pathname := String.mk (dirOf base.pathname.data ++ pathChars)
                 search := search }

/-- Model of `new URL(input, baseStr)`: the base string is parsed first
(an unparseable base throws regardless of the input, as in WHATWG). -/
def parseWith (input baseStr : String) : Option URL :=
  match parse baseStr with
  | none => none
  | some base => resolveRel input base

/-- Model of the WHATWG `protocol` setter (`url.protocol = scheme + ":"`):
the scheme is replaced and a port that equals the new scheme's default
port is normalized away.  (The setter's special/non-special switching
restriction is vacuous here: the model parser only produces special
schemes.) -/
def setProtocol (u : URL) (scheme : String) : URL :=
  if u.port = defaultPort scheme then { u with scheme := scheme, port := none }
  else { u with scheme := scheme }

/-- Model of the WHATWG `host` setter (`url.host = "hostname[:port]"`):
the host name is replaced, but the port is replaced only when the
assigned value carries one (normalized against the URL's scheme) — when
the assigned value has no port, the URL's existing port is retained. -/
def setHost (u : URL) (hostname : String) (port : Option Nat) : URL :=
  { u with
      hostname := hostname
      port :=
        match port with
        | none => u.port
        | some p => if defaultPort u.scheme = some p then none else some p }

end URL

/-! ## Safe-redirect guard (`getSafeDrupalRedirectUrl`, `src/unnamed/part_004`)

```ts
function getSafeDrupalRedirectUrl(drupalUrl: string, drupalBaseUrl: string): string | null {
  let allowedOrigin: string
  try { allowedOrigin = new URL(drupalBaseUrl).origin } catch { return null }
  try {
    const target = new URL(drupalUrl, allowedOrigin)
    return target.origin === allowedOrigin ? target.toString() : null
  } catch { return null }
}
```
-/

def getSafeDrupalRedirectUrl (drupalUrl drupalBaseUrl : String) : Option String :=
  match URL.parse drupalBaseUrl with
  | none => none
  | some b =>
    let allowedOrigin := b.origin
    match URL.parseWith drupalUrl allowedOrigin with
    | none => none
    | some target =>
      if target.origin = allowedOrigin then some target.toStr else none

/-! ## Catch-all page dispatch (`Page`, `src/unnamed/part_004`) -/

structure RedirectInfo where
  «to» : String
  status : Option Nat
deriving Repr, DecidableEq

/-- The `ResolveResponse` union of `src/lib/drupal/types.ts`, flattened:
each variant populates the fields it carries and leaves the rest
`none` / `false`. -/
structure ResolveResponse where
  resolved : Bool
  kind : Option String
  redirect : Option RedirectInfo
  jsonapi_url : Option String
  data_url : Option String
  headless : Bool
  drupal_url : Option String
deriving Repr, DecidableEq

inductive PageOutcome where
  /-- the "set DRUPAL_BASE_URL" help page rendered when the env var is unset -/
  | configHelp
  | notFound
  | redirected (target : String)
  | renderView (dataUrl : String)
  | renderEntity (jsonapiUrl : String)
deriving Repr, DecidableEq

/-- Dispatch of the catch-all `Page` (`src/unnamed/part_004`, lines 45-104):
the decision made from the environment's `DRUPAL_BASE_URL`, the resolver
result and the (already serialized) search-params query string.  `redirect`
/ `notFound` of `next/navigation` are modelled as outcomes. -/
def pageDispatch (drupalBaseUrl : Option String) (resolved : ResolveResponse)
    (query : String) : PageOutcome :=
  if ¬ jsTruthy drupalBaseUrl then .configHelp
  else
    let base := drupalBaseUrl.getD ""
    if ¬ resolved.resolved then .notFound
    else
      match resolved.redirect with
      | some r => .redirected r.to
      | none =>
        if ¬ resolved.headless ∧ jsTruthy resolved.drupal_url then
          match getSafeDrupalRedirectUrl (resolved.drupal_url.getD "") base with
          | some safe => if safe ≠ "" then .redirected safe else .notFound
          | none => .notFound
        else if resolved.kind = some "view" ∧ jsTruthy resolved.data_url then
          .renderView
            (if query ≠ "" then resolved.data_url.getD "" ++ "?" ++ query
             else resolved.data_url.getD "")
        else if resolved.kind = some "entity" ∧ jsTruthy resolved.jsonapi_url then
          .renderEntity (resolved.jsonapi_url.getD "")
        else .notFound

/-! ## `resolveFileUrl` (`src/lib/drupal/url.ts`, lines 29-56)

The optional `baseUrl` parameter is passed explicitly (at the repository's
call sites it defaults to `getDrupalBaseUrl()`); `none` models JS
`null`/`undefined` input. -/

def resolveFileUrl (url : Option String) (baseUrl : String) : Option String :=
  match url with
  | none => none
  | some u =>
    if u = "" then none
    else if jsStartsWith u "http://" || jsStartsWith u "https://" then some u
    else if jsStartsWith u "data:" then some u
    else if jsStartsWith u "//" then some ("https:" ++ u)
    else
      let path := if jsStartsWith u "/" then u else "/" ++ u
      some (baseUrl ++ path)

/-! ## Credentials and fetch cache modes
(`getDrupalAuthHeaders` from `src/unnamed/part_007`; the fetch-option
ternaries of `fetchResolver` in `src/lib/drupal/resolve.ts` lines 32-37 and
`fetchJsonApi` / `fetchView` in `src/lib/drupal/media.ts` lines 467-478 /
549-560). -/

def base64Table : List Char :=
  "ABCDEFGHIJKLMNOPQRSTUVWXYZabcdefghijklmnopqrstuvwxyz0123456789+/".data

def b64Char (n : Nat) : Char := base64Table.getD n 'A'

/-- RFC 4648 base64 over byte values (model of `Buffer.toString("base64")`). -/
def base64Chunks : List Nat → List Char
  | a :: b :: c :: rest =>
    b64Char (a / 4) :: b64Char ((a % 4) * 16 + b / 16) ::
      b64Char ((b % 16) * 4 + c / 64) :: b64Char (c % 64) :: base64Chunks rest
  | [a, b] => [b64Char (a / 4), b64Char ((a % 4) * 16 + b / 16), b64Char ((b % 16) * 4), '=']
  | [a] => [b64Char (a / 4), b64Char ((a % 4) * 16), '=', '=']
  | [] => []

/-- Base64 of a string's code points (ASCII credentials assumed). -/
def base64Encode (s : String) : String :=
  String.mk (base64Chunks (s.data.map Char.toNat))

/-- Model of `getDrupalAuthHeaders()` (`src/unnamed/part_007`), with the three
environment variables passed explicitly.  Returns the `Authorization`
header when per-user credentials are configured. -/
def getDrupalAuthHeaders (jwt user pass : Option String) : Option (String × String) :=
  if jsTruthy jwt ∧ strTrim (jwt.getD "") ≠ "" then
    some ("Authorization", "Bearer " ++ strTrim (jwt.getD ""))
  else if jsTruthy user ∧ jsTruthy pass then
    some ("Authorization", "Basic " ++ base64Encode (user.getD "" ++ ":" ++ pass.getD ""))
  else none

inductive CacheMode where
  /-- caching disabled entirely -/
  | noStore
  /-- cached within a freshness window of the given seconds -/
  | revalidateWindow (seconds : Nat)
deriving Repr, DecidableEq

/-- Cache mode chosen by `fetchResolver` (`src/lib/drupal/resolve.ts` 32-37):
`authHeaders ? { cache: "no-store", ... } : { next: { revalidate: 60 }, ... }`. -/
def resolverFetchCache (auth : Option (String × String)) : CacheMode :=
  match auth with
  | some _ => .noStore
  | none => .revalidateWindow 60

/-- Cache mode chosen by `fetchJsonApi` / `fetchView`
(`src/lib/drupal/media.ts` 467-478 and 549-560):
`authHeaders ? { cache: "no-store", ... } : { next: { revalidate: options?.revalidate ?? 60, ... } }`. -/
def jsonApiFetchCache (auth : Option (String × String)) (revalidateOpt : Option Nat) :
    CacheMode :=
  match auth with
  | some _ => .noStore
  | none => .revalidateWindow (revalidateOpt.getD 60)

/-! ## Proxy header filtering (bootstrap proxy file, lines 293-314 / 444-500)

A `Headers` object is modelled as an association list with lower-cased
names (`set` replaces every entry of the name, `append` adds one, `get`
joins all values of the name). -/

def FORWARD_REQUEST_HEADERS : List String :=
  ["accept", "accept-language", "content-type", "cookie",
   "x-requested-with", "x-csrf-token", "cache-control"]

def FORWARD_RESPONSE_HEADERS : List String :=
  ["content-type", "content-length", "cache-control", "set-cookie",
   "location", "vary", "x-drupal-cache", "x-drupal-dynamic-cache"]

def headersGet (hs : List (String × String)) (name : String) : Option String :=
  match hs.filter (fun kv => lowerStr kv.1 = lowerStr name) with
  | [] => none
  | vs => some (String.intercalate ", " (vs.map (·.2)))

def headersSet (hs : List (String × String)) (name value : String) :
    List (String × String) :=
  hs.filter (fun kv => lowerStr kv.1 ≠ lowerStr name) ++ [(lowerStr name, value)]

def headersAppend (hs : List (String × String)) (name value : String) :
    List (String × String) :=
  hs ++ [(lowerStr name, value)]

/-- The outbound request headers built by `proxyToDrupal` (lines 444-469):
the allow-listed copies from the inbound request, the three
`X-Forwarded-*` headers and, when a secret is configured,
`X-Proxy-Secret`. -/
def buildForwardRequestHeaders (reqHeaders : List (String × String))
    (protocol hostHeader : String) (proxySecret : Option String) :
    List (String × String) :=
  let copied := FORWARD_REQUEST_HEADERS.foldl
    (fun hs name =>
      match headersGet reqHeaders name with
      | some v => if v ≠ "" then headersSet hs name v else hs
      | none => hs) []
  let xff := jsOrStr (headersGet reqHeaders "x-forwarded-for")
    (jsOrStr (headersGet reqHeaders "x-real-ip")
      (jsOrStr (headersGet reqHeaders "cf-connecting-ip") "unknown"))
  let hs := headersSet copied "X-Forwarded-For" xff
  let hs := headersSet hs "X-Forwarded-Proto" (String.mk (removeFirst ':' protocol.data))
  let hs := headersSet hs "X-Forwarded-Host" hostHeader
  if jsTruthy proxySecret then headersSet hs "X-Proxy-Secret" (proxySecret.getD "")
  else hs

/-- The response headers copied back to the client by `proxyToDrupal`
(lines 484-500): the allow-listed copies, with every `Set-Cookie`
instance appended individually. -/
def buildResponseHeaders (backendHeaders : List (String × String)) :
    List (String × String) :=
  FORWARD_RESPONSE_HEADERS.foldl
    (fun hs name =>
      match headersGet backendHeaders name with
      | some v =>
        if v ≠ "" then
          if name = "set-cookie" then
            (backendHeaders.filter (fun kv => lowerStr kv.1 = "set-cookie")).foldl
              (fun hs kv => headersAppend hs "set-cookie" kv.2) hs
          else headersSet hs name v
        else hs
      | none => hs) []

/-! ## Proxy target construction (`proxyToDrupal`, lines 416-442) -/

inductive ProxyAbort where
  /-- the configured origin URL is unparseable (the constructor throws) -/
  | parseFail
  /-- scheme is neither `http:` nor `https:` -/
  | badScheme
  /-- inbound path does not start with `/` -/
  | badPath
  /-- the rebuilt origin differs from the configured origin -/
  | originMismatch
deriving Repr, DecidableEq

/-- The target-URL construction of `proxyToDrupal` (lines 425-442):

```ts
const drupalOriginUrl = new URL(drupalOrigin)
if (drupalOriginUrl.protocol !== "http:" && drupalOriginUrl.protocol !== "https:") return next
if (!path.startsWith("/")) return next
const targetUrl = new URL(drupalOriginUrl.origin)
targetUrl.pathname = path
targetUrl.search = request.nextUrl.search
if (targetUrl.origin !== drupalOriginUrl.origin) return next
```

Every `.error` branch aborts forwarding (either a `NextResponse.next()`
pass-through or, for the initial parse, an uncaught throw). -/
def buildProxyTarget (drupalOrigin path search : String) : Except ProxyAbort URL :=
  match URL.parse drupalOrigin with
  | none => .error .parseFail
  | some drupalOriginUrl =>
    if drupalOriginUrl.scheme ≠ "http" ∧ drupalOriginUrl.scheme ≠ "https" then
      .error .badScheme
    else if ¬ jsStartsWith path "/" then .error .badPath
    else
      match URL.parse drupalOriginUrl.origin with
      | none => .error .parseFail
      | some base =>
        let targetUrl := { base with pathname := path, search := search }
        if targetUrl.origin ≠ drupalOriginUrl.origin then .error .originMismatch
        else .ok targetUrl

/-! ## `Location` rewriting (`rewriteLocationHeader`, lines 529-545) -/

/--
```ts
function rewriteLocationHeader(location, drupalOrigin, frontendOrigin) {
  try {
    const url = new URL(location)
    const drupalUrl = new URL(drupalOrigin)
    if (url.host === drupalUrl.host) {
      url.protocol = new URL(frontendOrigin).protocol
      url.host = new URL(frontendOrigin).host
    }
    return url.toString()
  } catch { return location }
}
```

The two assignments go through the WHATWG setter models: the `protocol`
setter renormalizes a port that becomes the new scheme's default, and the
`host` setter (assigned `new URL(frontendOrigin).host`, i.e. `f.hostname`
with `f`'s port when present) retains the location's existing port when
the frontend origin carries none. -/
def rewriteLocationHeader (location drupalOrigin frontendOrigin : String) : String :=
  match URL.parse location with
  | none => location
  | some url =>
    match URL.parse drupalOrigin with
    | none => location
    | some drupalUrl =>
      if url.host = drupalUrl.host then
        match URL.parse frontendOrigin with
        | none => location
        | some f =>
          URL.toStr (URL.setHost (URL.setProtocol url f.scheme) f.hostname f.port)
      else URL.toStr url

/-! ## Deny-list matching (`DRUPAL_ONLY_PATHS` / `isDrupalOnlyPath`,
bootstrap proxy file lines 270-288 and 363-371) -/

def DRUPAL_ONLY_PATHS : List String :=
  ["/core", "/modules", "/themes", "/sites", "/libraries",
   "/admin", "/user", "/node/add", "/node/*/edit", "/node/*/delete",
   "/media/add", "/taxonomy/term/*/edit", "/batch", "/system", "/devel"]

def NEXTJS_ONLY_PATHS : List String :=
  ["/_next", "/api", "/favicon.ico", "/robots.txt", "/sitemap.xml"]

/-- The `(/|$)` tail of the constructed regex: the remainder is empty or
continues with a `/`. -/
def boundaryOk : List Char → Bool
  | [] => true
  | c :: _ => c = '/'

/-- All remainders `l'` obtained by removing a non-empty, slash-free prefix
from `l` — the strings `[^/]+` can consume. -/
def nonSlashSplits : List Char → List (List Char)
  | [] => []
  | c :: cs => if c = '/' then [] else cs :: nonSlashSplits cs

/-- Matching of the regex remainder `[^/]+ c₁ [^/]+ c₂ … [^/]+ cₙ (/|$)`
against `l`, where `cs` are the literal chunks between the `[^/]+`
classes.  `RegExp.test` semantics: true iff some decomposition matches. -/
def matchGaps : List (List Char) → List Char → Bool
  | [], l => boundaryOk l
  | B :: rest, l =>
    (nonSlashSplits l).any fun l' =>
      B.isPrefixOf l' && matchGaps rest (l'.drop B.length)

/-- One step of `isDrupalOnlyPath`'s `.some` callback (lines 364-370):

```ts
if (pattern.includes("*")) {
  const regex = new RegExp("^" + pattern.replace(/\*/g, "[^/]+") + "(/|$)")
  return regex.test(path)
}
return path === pattern || path.startsWith(pattern + "/")
```

The constructed regex is `^ chunk₀ [^/]+ chunk₁ … [^/]+ chunkₙ (/|$)` where
the chunks are the pieces of the pattern around the `*`s (the deny-list
patterns contain no other regex metacharacters). -/
def patternMatches (pattern path : String) : Bool :=
  if pattern.data.contains '*' then
    match splitOnChar '*' pattern.data with
    | [] => false
    | c0 :: rest => c0.isPrefixOf path.data && matchGaps rest (path.data.drop c0.length)
  else
    path == pattern || (pattern ++ "/").data.isPrefixOf path.data

/-- Translation of `isDrupalOnlyPath` (lines 363-371). -/
def isDrupalOnlyPath (path : String) : Bool :=
  DRUPAL_ONLY_PATHS.any fun pattern => patternMatches pattern path

/-- The `NEXTJS_ONLY_PATHS.some((p) => path.startsWith(p))` check
(line 320). -/
def isNextjsOnlyPath (path : String) : Bool :=
  NEXTJS_ONLY_PATHS.any fun p => jsStartsWith path p

/-! ## Mode-B dispatch (`proxy`, bootstrap proxy file lines 316-358) -/

/-- A thrown JS `Error`: the proxy must log only `message`, never the rest
of the object (`stack` stands for everything else an `Error` carries,
e.g. a cause embedding the backend origin URL). -/
structure JsError where
  message : String
  stack : String
deriving Repr, DecidableEq

/-- Result of the (single possible) `resolvePath` call, as seen by the
`try`/`catch` in `proxy`: either the parsed response, a thrown `Error`, or
a thrown non-`Error` value.  `resolvePath` throws on network failure, on a
non-success status (`Resolver returned ${status}`) and on a JSON parse
failure. -/
inductive ResolverCall where
  | ok (r : ResolveResponse)
  | errObj (e : JsError)
  | errOther
deriving Repr, DecidableEq

inductive DispatchOutcome where
  /-- pass through to local Next.js handling -/
  | next
  /-- hand the request to `proxyToDrupal` -/
  | toDrupal
deriving Repr, DecidableEq

structure DispatchResult where
  outcome : DispatchOutcome
  /-- number of resolver calls made while dispatching this request -/
  resolverCalls : Nat
  /-- lines emitted to `console.error` while dispatching -/
  log : List String
deriving Repr, DecidableEq

/-- The dispatch of `proxy` (lines 316-358).  `deploymentMode` is
`process.env.DEPLOYMENT_MODE`; `resolver` is what the single
`resolvePath(path)` call would yield, consulted only in the branch that
actually performs it. -/
def proxyDispatch (deploymentMode : Option String) (path : String)
    (resolver : ResolverCall) : DispatchResult :=
  if isNextjsOnlyPath path then ⟨.next, 0, []⟩
  else if jsOrStr deploymentMode "split_routing" ≠ "nextjs_first" then ⟨.next, 0, []⟩
  else if isDrupalOnlyPath path then ⟨.toDrupal, 0, []⟩
  else
    match resolver with
    | .ok r =>
      if ¬ r.resolved then ⟨.next, 1, []⟩
      else if r.headless then ⟨.next, 1, []⟩
      else ⟨.toDrupal, 1, []⟩
    | .errObj e => ⟨.next, 1, ["[jsonapi_frontend] Resolver error: " ++ e.message]⟩
    | .errOther => ⟨.next, 1, ["[jsonapi_frontend] Resolver error: Unknown error"]⟩

/-- The names the outbound request may carry: the request allow-list plus
the four headers the proxy itself adds. -/
def allowedOutboundRequestNames : List String :=
  FORWARD_REQUEST_HEADERS ++
    ["x-forwarded-for", "x-forwarded-proto", "x-forwarded-host", "x-proxy-secret"]

/-! ## Spec-side wildcard semantics (for the refinement claim about the
deny-list matcher)

`SpecGaps` / `SpecDenyMatch` transcribe the specification's wording — "a
single `*` token matches exactly one path segment (no slash); a match
requires either an exact path match or the pattern followed by a `/`
boundary" — as an explicit existential decomposition, to be compared with
the regex-based matcher translated from the code. -/

/-- After the leading literal chunk, the remainder must be gap/chunk
alternations ending at a `/`-or-end boundary: each gap is one non-empty
path segment containing no slash. -/
def SpecGaps : List (List Char) → List Char → Prop
  | [], l => l = [] ∨ ∃ r, l = '/' :: r
  | B :: rest, l =>
    ∃ s l', l = s ++ B ++ l' ∧ s ≠ [] ∧ (∀ c ∈ s, c ≠ '/') ∧ SpecGaps rest l'

/-- The specification's reading of one deny-list pattern: for a pattern containing
`*`, the path is the pattern with each `*` replaced by one slash-free
segment, followed by end-of-string or a `/` boundary; for a literal
pattern, the path equals the pattern or begins with the pattern followed
by `/`. -/
def SpecDenyMatch (pattern path : String) : Prop :=
  if pattern.data.contains '*' then
    match splitOnChar '*' pattern.data with
    | [] => False
    | c0 :: rest => ∃ l', path.data = c0 ++ l' ∧ SpecGaps rest l'
  else
    path = pattern ∨ ∃ r, path.data = pattern.data ++ '/' :: r

/-! ## General-purpose lemmas -/

theorem string_eq_of_data_eq {s t : String} (h : s.data = t.data) : s = t := by
  cases s; cases t; exact congrArg String.mk h

theorem jsStartsWith_exists {s pre : String} :
    jsStartsWith s pre = true ↔ ∃ t, pre.data ++ t = s.data := by
  simp only [jsStartsWith, List.isPrefixOf_iff_prefix]
  exact Iff.rfl

theorem jsStartsWith_append {s pre : String} (t : String)
    (h : jsStartsWith s pre = true) : jsStartsWith (s ++ t) pre = true := by
  obtain ⟨w, hw⟩ := jsStartsWith_exists.mp h
  exact jsStartsWith_exists.mpr ⟨w ++ t.data, by rw [String.data_append, ← hw, List.append_assoc]⟩

theorem ne_empty_of_jsStartsWith {s pre : String} (h : jsStartsWith s pre = true)
    (hp : pre.data ≠ []) : s ≠ "" := by
  obtain ⟨w, hw⟩ := jsStartsWith_exists.mp h
  intro hs
  subst hs
  have : pre.data ++ w = [] := hw
  exact hp (List.append_eq_nil.mp this).1

/-! ## Theorems for the claims -/

/-- C1 (guard soundness): for every candidate redirect string `c` and
configured backend base URL `o`, `getSafeDrupalRedirectUrl c o` returns
`none` whenever `o` cannot be parsed, and whenever it returns a URL string
that string is the serialization of a resolved absolute URL whose origin
exactly equals the origin parsed from `o`. -/
theorem c1_guard_soundness (c o : String) :
    (URL.parse o = none → getSafeDrupalRedirectUrl c o = none) ∧
    (∀ r, getSafeDrupalRedirectUrl c o = some r →
      ∃ b t, URL.parse o = some b ∧ URL.parseWith c b.origin = some t ∧
        r = t.toStr ∧ t.origin = b.origin) := by
  constructor
  · intro h
    simp only [getSafeDrupalRedirectUrl, h]
  · intro r hr
    unfold getSafeDrupalRedirectUrl at hr
    cases hb : URL.parse o with
    | none => rw [hb] at hr; cases hr
    | some b =>
      rw [hb] at hr
      simp only at hr
      cases ht : URL.parseWith c b.origin with
      | none => rw [ht] at hr; cases hr
      | some t =>
        rw [ht] at hr
        have hr' : (if t.origin = b.origin then some t.toStr else none) = some r := hr
        by_cases hor : t.origin = b.origin
        · rw [if_pos hor] at hr'
          exact ⟨b, t, rfl, ht, (Option.some.inj hr').symm, hor⟩
        · rw [if_neg hor] at hr'; cases hr'

/-- Witness for C1 at concrete inputs: an unparseable base fails closed,
and a relative candidate resolves inside the configured origin. -/
theorem c1_guard_soundness_witness :
    getSafeDrupalRedirectUrl "/foo?q=1" "not a url" = none ∧
    ∃ b t, URL.parse "https://cms.example.com" = some b ∧
      URL.parseWith "/foo?q=1" b.origin = some t ∧
      "https://cms.example.com/foo?q=1" = t.toStr ∧ t.origin = b.origin :=
  ⟨(c1_guard_soundness "/foo?q=1" "not a url").1 (by rfl),
   (c1_guard_soundness "/foo?q=1" "https://cms.example.com").2
     "https://cms.example.com/foo?q=1" (by rfl)⟩

/-- C3 (proxy target construction): forwarding either aborts — in
particular whenever the configured URL does not parse or its scheme is
neither `http` nor `https` — or produces a target URL whose origin equals
the configured URL's origin and whose path and query are exactly the
inbound path and query (so the configured URL's own path component never
contributes). -/
theorem c3_proxy_target (cfg path search : String) :
    (URL.parse cfg = none → buildProxyTarget cfg path search = .error .parseFail) ∧
    (∀ u, URL.parse cfg = some u → u.scheme ≠ "http" → u.scheme ≠ "https" →
      buildProxyTarget cfg path search = .error .badScheme) ∧
    (∀ t, buildProxyTarget cfg path search = .ok t →
      t.pathname = path ∧ t.search = search ∧
      ∃ u, URL.parse cfg = some u ∧ t.origin = u.origin) := by
  refine ⟨?_, ?_, ?_⟩
  · intro h
    simp only [buildProxyTarget, h]
  · intro u hu h1 h2
    simp only [buildProxyTarget, hu]
    rw [if_pos ⟨h1, h2⟩]
  · intro t ht
    unfold buildProxyTarget at ht
    cases hu : URL.parse cfg with
    | none => rw [hu] at ht; cases ht
    | some u =>
      rw [hu] at ht
      simp only at ht
      by_cases hs : u.scheme ≠ "http" ∧ u.scheme ≠ "https"
      · rw [if_pos hs] at ht; cases ht
      · rw [if_neg hs] at ht
        by_cases hp : ¬ jsStartsWith path "/" = true
        · rw [if_pos hp] at ht; cases ht
        · rw [if_neg hp] at ht
          cases hb : URL.parse u.origin with
          | none => rw [hb] at ht; cases ht
          | some base =>
            rw [hb] at ht
            simp only at ht
            by_cases hor :
                URL.origin { base with pathname := path, search := search } ≠ u.origin
            · rw [if_pos hor] at ht; cases ht
            · rw [if_neg hor] at ht
              cases ht
              exact ⟨rfl, rfl, u, rfl, not_not.mp hor⟩

/-- Witness for C3 at concrete inputs: a `ftp` configured origin aborts
with `badScheme`; a well-formed configuration with a path-carrying
configured URL yields a target with exactly the inbound path and query
and the configured origin. -/
theorem c3_proxy_target_witness :
    buildProxyTarget "ftp://cms.example.com" "/p" "?q=1" = .error .badScheme ∧
    ((URL.mk "https" "cms.example.com" none "/p" "?q=1").pathname = "/p" ∧
      (URL.mk "https" "cms.example.com" none "/p" "?q=1").search = "?q=1" ∧
      ∃ u, URL.parse "https://cms.example.com/some/base" = some u ∧
        (URL.mk "https" "cms.example.com" none "/p" "?q=1").origin = u.origin) := by
  refine ⟨?_, ?_⟩
  · exact (c3_proxy_target "ftp://cms.example.com" "/p" "?q=1").2.1
      (URL.mk "ftp" "cms.example.com" none "/" "") (by rfl)
      (by decide) (by decide)
  · exact (c3_proxy_target "https://cms.example.com/some/base" "/p" "?q=1").2.2
      (URL.mk "https" "cms.example.com" none "/p" "?q=1") (by rfl)

/-- Any URL produced by the model parser carries a normalized port: an
explicit port is never the scheme's default port. -/
theorem parse_port_normalized {s : String} {u : URL} (h : URL.parse s = some u) :
    ∀ p, u.port = some p → URL.defaultPort u.scheme ≠ some p := by
  unfold URL.parse at h
  cases hv : URL.parseRaw s with
  | none => rw [hv] at h; cases h
  | some v =>
    rw [hv] at h
    have hu : u = URL.normalizePort v := (Option.some.inj h).symm
    subst hu
    unfold URL.normalizePort
    by_cases hd : v.port = URL.defaultPort v.scheme
    · rw [if_pos hd]
      intro p hp
      cases hp
    · rw [if_neg hd]
      intro p hp hdef
      exact hd (by rw [hp, ← hdef])

/-- Field characterization of the `protocol` setter model. -/
theorem setProtocol_fields (u : URL) (sch : String) :
    (URL.setProtocol u sch).scheme = sch ∧
    (URL.setProtocol u sch).hostname = u.hostname ∧
    (URL.setProtocol u sch).pathname = u.pathname ∧
    (URL.setProtocol u sch).search = u.search ∧
    ((URL.setProtocol u sch).port = u.port ∨
      ((URL.setProtocol u sch).port = none ∧ u.port = URL.defaultPort sch)) := by
  unfold URL.setProtocol
  by_cases h : u.port = URL.defaultPort sch
  · rw [if_pos h]
    exact ⟨rfl, rfl, rfl, rfl, Or.inr ⟨rfl, h⟩⟩
  · rw [if_neg h]
    exact ⟨rfl, rfl, rfl, rfl, Or.inl rfl⟩

/-- Field characterization of the `host` setter model. -/
theorem setHost_fields (u : URL) (hostname : String) (port : Option Nat) :
    (URL.setHost u hostname port).scheme = u.scheme ∧
    (URL.setHost u hostname port).hostname = hostname ∧
    (URL.setHost u hostname port).pathname = u.pathname ∧
    (URL.setHost u hostname port).search = u.search ∧
    (port = none → (URL.setHost u hostname port).port = u.port) ∧
    (∀ p, port = some p → URL.defaultPort u.scheme ≠ some p →
      (URL.setHost u hostname port).port = some p) := by
  refine ⟨rfl, rfl, rfl, rfl, ?_, ?_⟩
  · intro h
    subst h
    rfl
  · intro p hp hnd
    subst hp
    show (if URL.defaultPort u.scheme = some p then none else some p) = some p
    rw [if_neg hnd]

/-- C7, counterexample: the original claim asserts that a host-matching
backend redirect becomes the frontend origin plus exactly the original
path and query.  When the backend origin carries an explicit port and the
frontend origin does not, the WHATWG `host` setter retains the location's
port, so the rewritten value keeps `:8080` and is not the frontend origin
plus `/x?y=1`. -/
theorem c7_location_rewrite_counterexample :
    rewriteLocationHeader "https://cms.example.com:8080/x?y=1"
        "https://cms.example.com:8080" "https://front.example" =
      "https://front.example:8080/x?y=1" ∧
    rewriteLocationHeader "https://cms.example.com:8080/x?y=1"
        "https://cms.example.com:8080" "https://front.example" ≠
      "https://front.example" ++ "/x?y=1" := by
  exact ⟨by rfl, by decide⟩

/-- C7, amended (Location rewrite): a `Location` value that fails to parse
as an absolute URL is returned unchanged; a parsed `Location` whose host
equals the backend origin's host is re-serialized with the scheme and
host name replaced by the frontend's, the port replaced by the frontend's
when the frontend origin carries an explicit port and otherwise retained
from the location (normalized away when it coincides with the new
scheme's default port) — path and query unchanged. -/
theorem c7_location_rewrite (loc dr fr : String) :
    (URL.parse loc = none → rewriteLocationHeader loc dr fr = loc) ∧
    (∀ u d f, URL.parse loc = some u → URL.parse dr = some d →
      URL.parse fr = some f → u.host = d.host →
      ∃ t : URL, rewriteLocationHeader loc dr fr = t.toStr ∧
        t.scheme = f.scheme ∧ t.hostname = f.hostname ∧
        (f.port ≠ none → t.port = f.port) ∧
        (f.port = none →
          t.port = u.port ∨ (t.port = none ∧ u.port = URL.defaultPort f.scheme)) ∧
        t.pathname = u.pathname ∧ t.search = u.search) := by
  constructor
  · intro h
    simp only [rewriteLocationHeader, h]
  · intro u d f hu hd hf hhost
    simp only [rewriteLocationHeader, hu, hd, hf, if_pos hhost]
    refine ⟨URL.setHost (URL.setProtocol u f.scheme) f.hostname f.port,
      rfl, ?_, ?_, ?_, ?_, ?_, ?_⟩
    all_goals
      obtain ⟨ps, ph, pp, pq, pport⟩ := setProtocol_fields u f.scheme
      obtain ⟨hs, hh, hp, hq, hnone, hsome⟩ :=
        setHost_fields (URL.setProtocol u f.scheme) f.hostname f.port
    · rw [hs, ps]
    · exact hh
    · intro hne
      obtain ⟨p, hfp⟩ := Option.ne_none_iff_exists'.mp hne
      have h1 := hsome p hfp (by rw [ps]; exact parse_port_normalized hf p hfp)
      rw [h1, hfp]
    · intro hfp
      rw [hnone hfp]
      rcases pport with h | ⟨h1, h2⟩
      · exact Or.inl h
      · exact Or.inr ⟨h1, h2⟩
    · rw [hp, pp]
    · rw [hq, pq]

/-- Witness for the amended C7 at concrete inputs: a relative `Location`
passes through unchanged; a portless frontend origin retains the
location's `:8080`; a frontend origin with `:9000` imposes it. -/
theorem c7_location_rewrite_witness :
    rewriteLocationHeader "/relative?a=1" "https://cms.example.com" "https://front.example" =
      "/relative?a=1" ∧
    (∃ t : URL, rewriteLocationHeader "https://cms.example.com:8080/x?y=1"
          "https://cms.example.com:8080" "https://front.example" = t.toStr ∧
      t.scheme = "https" ∧ t.hostname = "front.example" ∧
      ((none : Option Nat) ≠ none → t.port = none) ∧
      ((none : Option Nat) = none →
        t.port = some 8080 ∨ (t.port = none ∧ some 8080 = URL.defaultPort "https")) ∧
      t.pathname = "/x" ∧ t.search = "?y=1") ∧
    (∃ t : URL, rewriteLocationHeader "https://cms.example.com:8080/x?y=1"
          "https://cms.example.com:8080" "https://front.example:9000" = t.toStr ∧
      t.scheme = "https" ∧ t.hostname = "front.example" ∧
      (some 9000 ≠ (none : Option Nat) → t.port = some 9000) ∧
      (some 9000 = (none : Option Nat) →
        t.port = some 8080 ∨ (t.port = none ∧ some 8080 = URL.defaultPort "https")) ∧
      t.pathname = "/x" ∧ t.search = "?y=1") := by
  refine ⟨?_, ?_, ?_⟩
  · exact (c7_location_rewrite "/relative?a=1" "https://cms.example.com"
      "https://front.example").1 (by rfl)
  · exact (c7_location_rewrite "https://cms.example.com:8080/x?y=1"
      "https://cms.example.com:8080" "https://front.example").2
      (URL.mk "https" "cms.example.com" (some 8080) "/x" "?y=1")
      (URL.mk "https" "cms.example.com" (some 8080) "/" "")
      (URL.mk "https" "front.example" none "/" "")
      (by rfl) (by rfl) (by rfl) (by rfl)
  · exact (c7_location_rewrite "https://cms.example.com:8080/x?y=1"
      "https://cms.example.com:8080" "https://front.example:9000").2
      (URL.mk "https" "cms.example.com" (some 8080) "/x" "?y=1")
      (URL.mk "https" "cms.example.com" (some 8080) "/" "")
      (URL.mk "https" "front.example" (some 9000) "/" "")
      (by rfl) (by rfl) (by rfl) (by rfl)

/-- C10 (resolveFileUrl): `null`/`undefined`/empty input yields
`null`; for non-empty input and a base beginning with `http://` or
`https://` the result begins with `http://`, `https://` or `data:` and the
function is idempotent for that base. -/
theorem c10_resolveFileUrl (b : String)
    (hb : jsStartsWith b "http://" = true ∨ jsStartsWith b "https://" = true) :
    resolveFileUrl none b = none ∧ resolveFileUrl (some "") b = none ∧
    ∀ u, u ≠ "" →
      ∃ r, resolveFileUrl (some u) b = some r ∧
        (jsStartsWith r "http://" = true ∨ jsStartsWith r "https://" = true ∨
          jsStartsWith r "data:" = true) ∧
        resolveFileUrl (some r) b = some r := by
  refine ⟨rfl, rfl, ?_⟩
  intro u hu
  by_cases h1 : (jsStartsWith u "http://" || jsStartsWith u "https://") = true
  · refine ⟨u, ?_, ?_, ?_⟩
    · simp only [resolveFileUrl, if_neg hu, h1, if_pos]
    · rcases Bool.or_eq_true .. |>.mp h1 with h | h
      · exact Or.inl h
      · exact Or.inr (Or.inl h)
    · simp only [resolveFileUrl, if_neg hu, h1, if_pos]
  · by_cases h2 : jsStartsWith u "data:" = true
    · have hne : u ≠ "" := hu
      refine ⟨u, ?_, Or.inr (Or.inr h2), ?_⟩
      · simp only [resolveFileUrl, if_neg hu]
        rw [if_neg h1, if_pos h2]
      · simp only [resolveFileUrl, if_neg hne]
        rw [if_neg h1, if_pos h2]
    · by_cases h3 : jsStartsWith u "//" = true
      · -- protocol-relative: the result is `"https:" ++ u`
        have hres : jsStartsWith ("https:" ++ u) "https://" = true := by
          obtain ⟨w, hw⟩ := jsStartsWith_exists.mp h3
          refine jsStartsWith_exists.mpr ⟨w, ?_⟩
          rw [String.data_append, ← hw]
          rfl
        have hne : ("https:" ++ u) ≠ "" :=
          ne_empty_of_jsStartsWith hres (by decide)
        refine ⟨"https:" ++ u, ?_, Or.inr (Or.inl hres), ?_⟩
        · simp only [resolveFileUrl, if_neg hu]
          rw [if_neg (by simpa using h1), if_neg (by simpa using h2), if_pos h3]
        · have hcond : (jsStartsWith ("https:" ++ u) "http://" ||
              jsStartsWith ("https:" ++ u) "https://") = true := by
            rw [hres, Bool.or_true]
          simp only [resolveFileUrl, if_neg hne]
          rw [if_pos hcond]
      · -- relative path: the result is `b ++ path`
        set path := if jsStartsWith u "/" = true then u else "/" ++ u with hpath
        have hres : jsStartsWith (b ++ path) "http://" = true ∨
            jsStartsWith (b ++ path) "https://" = true := by
          rcases hb with h | h
          · exact Or.inl (jsStartsWith_append path h)
          · exact Or.inr (jsStartsWith_append path h)
        have hcond : (jsStartsWith (b ++ path) "http://" ||
            jsStartsWith (b ++ path) "https://") = true := by
          rcases hres with h | h
          · rw [h, Bool.true_or]
          · rw [h, Bool.or_true]
        have hne : (b ++ path) ≠ "" := by
          rcases hres with h | h
          · exact ne_empty_of_jsStartsWith h (by decide)
          · exact ne_empty_of_jsStartsWith h (by decide)
        refine ⟨b ++ path, ?_, ?_, ?_⟩
        · simp only [resolveFileUrl, if_neg hu]
          rw [if_neg (by simpa using h1), if_neg (by simpa using h2),
            if_neg (by simpa using h3)]
        · rcases hres with h | h
          · exact Or.inl h
          · exact Or.inr (Or.inl h)
        · simp only [resolveFileUrl, if_neg hne]
          rw [if_pos hcond]

/-- Witness for C10 at a concrete base and input: a bare relative file
path resolves to an absolute URL under the base and the resolution is
idempotent. -/
theorem c10_resolveFileUrl_witness :
    resolveFileUrl none "https://cms.example.com" = none ∧
    resolveFileUrl (some "") "https://cms.example.com" = none ∧
    ∃ r, resolveFileUrl (some "sites/f/i.png") "https://cms.example.com" = some r ∧
      (jsStartsWith r "http://" = true ∨ jsStartsWith r "https://" = true ∨
        jsStartsWith r "data:" = true) ∧
      resolveFileUrl (some r) "https://cms.example.com" = some r := by
  obtain ⟨h1, h2, h3⟩ := c10_resolveFileUrl "https://cms.example.com" (Or.inr (by decide))
  exact ⟨h1, h2, h3 "sites/f/i.png" (by decide)⟩

/-- C8 (auth implies no-store): whenever `getDrupalAuthHeaders`
produces an `Authorization` header, `fetchResolver`, `fetchJsonApi` and
`fetchView` all issue the request with caching disabled (`no-store`);
without credentials the resolver uses the fixed 60-unit window and the
JSON:API fetches use the 60-unit default (every call site in the
repository leaves the `revalidate` option unset). -/
theorem c8_auth_no_store (jwt user pass : Option String) (revalidateOpt : Option Nat) :
    (getDrupalAuthHeaders jwt user pass ≠ none →
      resolverFetchCache (getDrupalAuthHeaders jwt user pass) = .noStore ∧
      jsonApiFetchCache (getDrupalAuthHeaders jwt user pass) revalidateOpt = .noStore) ∧
    (getDrupalAuthHeaders jwt user pass = none →
      resolverFetchCache (getDrupalAuthHeaders jwt user pass) = .revalidateWindow 60 ∧
      (revalidateOpt = none →
        jsonApiFetchCache (getDrupalAuthHeaders jwt user pass) revalidateOpt =
          .revalidateWindow 60)) := by
  constructor
  · intro h
    cases ha : getDrupalAuthHeaders jwt user pass with
    | none => exact absurd ha h
    | some a => exact ⟨by simp [resolverFetchCache, ha], by simp [jsonApiFetchCache, ha]⟩
  · intro h
    refine ⟨by simp [resolverFetchCache, h], ?_⟩
    intro hr
    simp [jsonApiFetchCache, h, hr]

/-- Witness for C8: with a bearer token configured both fetch paths are
`no-store`; with no credentials both use the 60-unit window. -/
theorem c8_auth_no_store_witness :
    (resolverFetchCache (getDrupalAuthHeaders (some "tok") none none) = .noStore ∧
      jsonApiFetchCache (getDrupalAuthHeaders (some "tok") none none) none = .noStore) ∧
    (resolverFetchCache (getDrupalAuthHeaders none none none) = .revalidateWindow 60 ∧
      jsonApiFetchCache (getDrupalAuthHeaders none none none) none =
        .revalidateWindow 60) := by
  refine ⟨(c8_auth_no_store (some "tok") none none none).1 (by decide), ?_⟩
  obtain ⟨h1, h2⟩ := (c8_auth_no_store none none none none).2 (by rfl)
  exact ⟨h1, h2 rfl⟩

/-- C2, counterexample: a resolver result whose `redirect` field points
outside the configured backend origin.  The guard rejects the target
(`getSafeDrupalRedirectUrl` returns `none`), yet the page handler issues
the redirect instead of responding not-found — `Page` calls
`redirect(resolved.redirect.to)` without consulting the guard. -/
theorem c2_redirect_unguarded_counterexample :
    getSafeDrupalRedirectUrl "https://evil.example/x" "https://cms.example.com" = none ∧
    pageDispatch (some "https://cms.example.com")
      { resolved := true, kind := some "entity",
        redirect := some { «to» := "https://evil.example/x", status := none },
        jsonapi_url := some "/jsonapi/node/page/1", data_url := none,
        headless := true, drupal_url := none } ""
      = .redirected "https://evil.example/x" :=
  ⟨by rfl, by rfl⟩

/-- C2, amended: the page handler issues a present `redirect` field
directly, without guarding; the origin guard (with `null` treated as
not-found) is applied to the non-headless `drupal_url` branch. -/
theorem c2_page_redirect_behavior (base query : String) (rr : ResolveResponse)
    (hbase : base ≠ "") (hres : rr.resolved = true) :
    (∀ r, rr.redirect = some r →
      pageDispatch (some base) rr query = .redirected r.to) ∧
    (rr.redirect = none → rr.headless = false → ∀ u, rr.drupal_url = some u → u ≠ "" →
      (∀ safe, getSafeDrupalRedirectUrl u base = some safe → safe ≠ "" →
        pageDispatch (some base) rr query = .redirected safe) ∧
      (getSafeDrupalRedirectUrl u base = none →
        pageDispatch (some base) rr query = .notFound)) := by
  have htruthy : jsTruthy (some base) = true := by
    simp [jsTruthy, hbase]
  constructor
  · intro r hr
    simp only [pageDispatch, htruthy, hres, hr]
    simp
  · intro hr hhl u hu hune
    constructor
    · intro safe hsafe hsne
      simp only [pageDispatch, htruthy, hres, hr, hu]
      simp [hhl, jsTruthy, hune]
      rw [hsafe]
      simp [hsne]
    · intro hsafe
      simp only [pageDispatch, htruthy, hres, hr, hu]
      simp [hhl, jsTruthy, hune]
      rw [hsafe]

/-- Witness for the amended C2 at concrete inputs: a present `redirect`
is issued as-is, and a non-headless `drupal_url` failing the guard yields
not-found. -/
theorem c2_page_redirect_behavior_witness :
    pageDispatch (some "https://cms.example.com")
      { resolved := true, kind := some "entity",
        redirect := some { «to» := "/go", status := none },
        jsonapi_url := none, data_url := none,
        headless := false, drupal_url := some "https://cms.example.com/a" } ""
      = .redirected "/go" ∧
    pageDispatch (some "https://cms.example.com")
      { resolved := true, kind := some "entity",
        redirect := none,
        jsonapi_url := none, data_url := none,
        headless := false, drupal_url := some "https://evil.example/x" } ""
      = .notFound := by
  constructor
  · exact (c2_page_redirect_behavior "https://cms.example.com" ""
      { resolved := true, kind := some "entity",
        redirect := some { «to» := "/go", status := none },
        jsonapi_url := none, data_url := none,
        headless := false, drupal_url := some "https://cms.example.com/a" }
      (by decide) rfl).1 { «to» := "/go", status := none } rfl
  · exact ((c2_page_redirect_behavior "https://cms.example.com" ""
      { resolved := true, kind := some "entity",
        redirect := none,
        jsonapi_url := none, data_url := none,
        headless := false, drupal_url := some "https://evil.example/x" }
      (by decide) rfl).2 rfl rfl "https://evil.example/x" rfl (by decide)).2 (by rfl)

/-- Every entry of `headersSet hs n v` is an old entry or carries the
lower-cased set name. -/
theorem mem_headersSet {hs : List (String × String)} {n v : String} {kv : String × String}
    (h : kv ∈ headersSet hs n v) : kv ∈ hs ∨ kv.1 = lowerStr n := by
  unfold headersSet at h
  rcases List.mem_append.mp h with h | h
  · exact Or.inl (List.mem_of_mem_filter h)
  · rw [List.mem_singleton.mp h]
    exact Or.inr rfl

/-- Every entry of `headersAppend hs n v` is an old entry or carries the
lower-cased appended name. -/
theorem mem_headersAppend {hs : List (String × String)} {n v : String} {kv : String × String}
    (h : kv ∈ headersAppend hs n v) : kv ∈ hs ∨ kv.1 = lowerStr n := by
  unfold headersAppend at h
  rcases List.mem_append.mp h with h | h
  · exact Or.inl h
  · rw [List.mem_singleton.mp h]
    exact Or.inr rfl

/-- Setting a header preserves "every entry's name lies in `S`" when the set
name's lower case lies in `S`. -/
theorem headersSet_names (S : List String) (hs : List (String × String))
    (h : ∀ kv ∈ hs, kv.1 ∈ S) (n : String) (hn : lowerStr n ∈ S) (v : String) :
    ∀ kv ∈ headersSet hs n v, kv.1 ∈ S := by
  intro kv hkv
  rcases mem_headersSet hkv with hkv | hkv
  · exact h kv hkv
  · rw [hkv]; exact hn

/-- Invariant of the request-header copy loop of `proxyToDrupal`
(lines 447-452): names stay inside `S` when all looped-over names do. -/
theorem copyRequestHeaders_names (reqHeaders : List (String × String)) (S : List String)
    (names : List String) (hnames : ∀ n ∈ names, lowerStr n ∈ S) :
    ∀ acc, (∀ kv ∈ acc, kv.1 ∈ S) →
      ∀ kv ∈ names.foldl
        (fun hs name =>
          match headersGet reqHeaders name with
          | some v => if v ≠ "" then headersSet hs name v else hs
          | none => hs) acc,
        kv.1 ∈ S := by
  induction names with
  | nil => exact fun acc hacc kv hkv => hacc kv hkv
  | cons n ns ih =>
    intro acc hacc kv hkv
    refine ih (fun m hm => hnames m (List.mem_cons_of_mem _ hm)) _ ?_ kv hkv
    intro kv' hkv'
    have hn : lowerStr n ∈ S := hnames n (List.mem_cons_self _ _)
    cases hget : headersGet reqHeaders n with
    | none =>
      simp only [hget] at hkv'
      exact hacc kv' hkv'
    | some v =>
      simp only [hget] at hkv'
      by_cases hv : v ≠ ""
      · rw [if_pos hv] at hkv'
        exact headersSet_names S acc hacc n hn v kv' hkv'
      · rw [if_neg hv] at hkv'
        exact hacc kv' hkv'

/-- Invariant of the `Set-Cookie` re-append loop (lines 491-495). -/
theorem appendCookies_names (S : List String) (hS : "set-cookie" ∈ S)
    (entries : List (String × String)) :
    ∀ acc, (∀ kv ∈ acc, kv.1 ∈ S) →
      ∀ kv ∈ entries.foldl
        (fun (hs : List (String × String)) (kv : String × String) =>
          headersAppend hs "set-cookie" kv.2) acc,
        kv.1 ∈ S := by
  induction entries with
  | nil => exact fun acc hacc kv hkv => hacc kv hkv
  | cons e es ih =>
    intro acc hacc kv hkv
    refine ih _ ?_ kv hkv
    intro kv' hkv'
    rcases mem_headersAppend hkv' with hkv' | hkv'
    · exact hacc kv' hkv'
    · rw [hkv']; exact hS

/-- Invariant of the response-header copy loop of `proxyToDrupal`
(lines 486-500). -/
theorem copyResponseHeaders_names (backendHeaders : List (String × String)) (S : List String)
    (hS : "set-cookie" ∈ S)
    (names : List String) (hnames : ∀ n ∈ names, lowerStr n ∈ S) :
    ∀ acc, (∀ kv ∈ acc, kv.1 ∈ S) →
      ∀ kv ∈ names.foldl
        (fun hs name =>
          match headersGet backendHeaders name with
          | some v =>
            if v ≠ "" then
              if name = "set-cookie" then
                (backendHeaders.filter
                    (fun (kv : String × String) => lowerStr kv.1 = "set-cookie")).foldl
                  (fun (hs : List (String × String)) (kv : String × String) =>
                    headersAppend hs "set-cookie" kv.2) hs
              else headersSet hs name v
            else hs
          | none => hs) acc,
        kv.1 ∈ S := by
  induction names with
  | nil => exact fun acc hacc kv hkv => hacc kv hkv
  | cons n ns ih =>
    intro acc hacc kv hkv
    refine ih (fun m hm => hnames m (List.mem_cons_of_mem _ hm)) _ ?_ kv hkv
    intro kv' hkv'
    have hn : lowerStr n ∈ S := hnames n (List.mem_cons_self _ _)
    cases hget : headersGet backendHeaders n with
    | none =>
      simp only [hget] at hkv'
      exact hacc kv' hkv'
    | some v =>
      simp only [hget] at hkv'
      by_cases hv : v ≠ ""
      · rw [if_pos hv] at hkv'
        by_cases hc : n = "set-cookie"
        · rw [if_pos hc] at hkv'
          exact appendCookies_names S hS _ acc hacc kv' hkv'
        · rw [if_neg hc] at hkv'
          exact headersSet_names S acc hacc n hn v kv' hkv'
      · rw [if_neg hv] at hkv'
        exact hacc kv' hkv'

/-- C4 (header allow-listing): for arbitrary headers injected into the
inbound request or the backend response, the outbound request carries only
allow-listed names plus `X-Forwarded-For` / `X-Forwarded-Proto` /
`X-Forwarded-Host` / `X-Proxy-Secret`, and the response copied back to the
client carries only response-allow-listed names. -/
theorem c4_header_allowlists (reqHeaders backendHeaders : List (String × String))
    (protocol hostHeader : String) (proxySecret : Option String) :
    (∀ kv ∈ buildForwardRequestHeaders reqHeaders protocol hostHeader proxySecret,
      kv.1 ∈ allowedOutboundRequestNames) ∧
    (∀ kv ∈ buildResponseHeaders backendHeaders, kv.1 ∈ FORWARD_RESPONSE_HEADERS) := by
  constructor
  · have h0 := copyRequestHeaders_names reqHeaders allowedOutboundRequestNames
      FORWARD_REQUEST_HEADERS (by decide) [] (by simp)
    have h1 := headersSet_names allowedOutboundRequestNames _ h0 "X-Forwarded-For"
      (by decide)
      (jsOrStr (headersGet reqHeaders "x-forwarded-for")
        (jsOrStr (headersGet reqHeaders "x-real-ip")
          (jsOrStr (headersGet reqHeaders "cf-connecting-ip") "unknown")))
    have h2 := headersSet_names allowedOutboundRequestNames _ h1 "X-Forwarded-Proto"
      (by decide) (String.mk (removeFirst ':' protocol.data))
    have h3 := headersSet_names allowedOutboundRequestNames _ h2 "X-Forwarded-Host"
      (by decide) hostHeader
    intro kv hkv
    unfold buildForwardRequestHeaders at hkv
    by_cases hsec : jsTruthy proxySecret = true
    · rw [if_pos hsec] at hkv
      exact headersSet_names allowedOutboundRequestNames _ h3 "X-Proxy-Secret"
        (by decide) (proxySecret.getD "") kv hkv
    · rw [if_neg hsec] at hkv
      exact h3 kv hkv
  · exact copyResponseHeaders_names backendHeaders FORWARD_RESPONSE_HEADERS (by decide)
      FORWARD_RESPONSE_HEADERS (by decide) [] (by simp)

/-- Witness for C4: with an injected `X-Evil` request header and an
injected `X-Internal` response header, concrete members of the built
header lists have allow-listed names. -/
theorem c4_header_allowlists_witness :
    ("cookie", "a=1").1 ∈ allowedOutboundRequestNames ∧
    ("set-cookie", "b=2").1 ∈ FORWARD_RESPONSE_HEADERS := by
  obtain ⟨h1, h2⟩ := c4_header_allowlists
    [("Cookie", "a=1"), ("X-Evil", "z")]
    [("Content-Type", "text/html"), ("Set-Cookie", "b=2"), ("X-Internal", "x")]
    "https:" "front.example" (some "s3cr3t")
  exact ⟨h1 ("cookie", "a=1") (by decide), h2 ("set-cookie", "b=2") (by decide)⟩

/-- C6 (fail-open): when the resolver call throws (any `Error` object,
or a non-`Error` value), Mode-B dispatch passes through to local handling
— it never forwards to the backend — and logs only the error's `message`
(the log line is a function of `message` alone, independent of everything
else the error carries). -/
theorem c6_resolver_failure_fail_open (deploymentMode : Option String) (path : String)
    (e : JsError)
    (hnx : isNextjsOnlyPath path = false)
    (hmode : jsOrStr deploymentMode "split_routing" = "nextjs_first")
    (hdr : isDrupalOnlyPath path = false) :
    proxyDispatch deploymentMode path (.errObj e) =
      ⟨.next, 1, ["[jsonapi_frontend] Resolver error: " ++ e.message]⟩ ∧
    proxyDispatch deploymentMode path .errOther =
      ⟨.next, 1, ["[jsonapi_frontend] Resolver error: Unknown error"]⟩ := by
  constructor <;>
    · simp only [proxyDispatch, hnx, hmode, hdr]
      simp

/-- Witness for C6 at a concrete request: a resolver error whose object
carries extra data (`stack`) is logged message-only and the request passes
through. -/
theorem c6_resolver_failure_fail_open_witness :
    proxyDispatch (some "nextjs_first") "/blog"
        (.errObj { message := "fetch failed", stack := "at https://cms.internal/..." }) =
      ⟨.next, 1, ["[jsonapi_frontend] Resolver error: fetch failed"]⟩ ∧
    proxyDispatch (some "nextjs_first") "/blog" .errOther =
      ⟨.next, 1, ["[jsonapi_frontend] Resolver error: Unknown error"]⟩ :=
  c6_resolver_failure_fail_open (some "nextjs_first") "/blog"
    { message := "fetch failed", stack := "at https://cms.internal/..." }
    (by rfl) (by rfl) (by rfl)

/-- Splitting lemma: `nonSlashSplits` produces exactly the remainders of removing a
non-empty slash-free prefix. -/
theorem mem_nonSlashSplits {l l' : List Char} :
    l' ∈ nonSlashSplits l ↔ ∃ s, l = s ++ l' ∧ s ≠ [] ∧ ∀ c ∈ s, c ≠ '/' := by
  induction l with
  | nil =>
    simp only [nonSlashSplits, List.not_mem_nil, false_iff]
    rintro ⟨s, hs, hne, -⟩
    exact hne (List.append_eq_nil.mp hs.symm).1
  | cons c cs ih =>
    by_cases hc : c = '/'
    · subst hc
      have hnil : nonSlashSplits ('/' :: cs) = [] := by simp [nonSlashSplits]
      rw [hnil]
      simp only [List.not_mem_nil, false_iff]
      rintro ⟨s, hs, hne, hns⟩
      cases s with
      | nil => exact hne rfl
      | cons a s' =>
        have ha : a = '/' := (List.cons.injEq .. |>.mp hs).1.symm
        exact hns a (List.mem_cons_self _ _) ha
    · rw [nonSlashSplits, if_neg hc]
      constructor
      · intro hmem
        rcases List.mem_cons.mp hmem with h | h
        · exact ⟨[c], by rw [h]; rfl, by simp, by simpa using hc⟩
        · rcases ih.mp h with ⟨s, hs, hne, hns⟩
          refine ⟨c :: s, by rw [List.cons_append, hs], by simp, ?_⟩
          intro a ha
          rcases List.mem_cons.mp ha with rfl | ha
          · exact hc
          · exact hns a ha
      · rintro ⟨s, hs, hne, hns⟩
        cases s with
        | nil => exact absurd rfl hne
        | cons a s' =>
          have hcs : cs = s' ++ l' := (List.cons.injEq .. |>.mp hs).2
          cases s' with
          | nil => exact List.mem_cons.mpr (Or.inl hcs.symm)
          | cons b s'' =>
            refine List.mem_cons.mpr (Or.inr (ih.mpr ⟨b :: s'', hcs, by simp, ?_⟩))
            intro x hx
            exact hns x (List.mem_cons_of_mem _ hx)

/-- The executable gap matcher agrees with the specification's existential
decomposition. -/
theorem matchGaps_iff (cs : List (List Char)) (l : List Char) :
    matchGaps cs l = true ↔ SpecGaps cs l := by
  induction cs generalizing l with
  | nil =>
    cases l with
    | nil => simp [matchGaps, boundaryOk, SpecGaps]
    | cons c r =>
      simp only [matchGaps, boundaryOk, SpecGaps, decide_eq_true_eq]
      constructor
      · intro h
        exact Or.inr ⟨r, by rw [h]⟩
      · rintro (h | ⟨r', hr⟩)
        · cases h
        · exact (List.cons.injEq .. |>.mp hr).1
  | cons B rest ih =>
    simp only [matchGaps, SpecGaps, List.any_eq_true]
    constructor
    · rintro ⟨l', hmem, hf⟩
      rw [Bool.and_eq_true] at hf
      obtain ⟨hpre, hm⟩ := hf
      obtain ⟨s, hsplit, hne, hns⟩ := mem_nonSlashSplits.mp hmem
      obtain ⟨t, ht⟩ := List.isPrefixOf_iff_prefix.mp hpre
      have hdrop : l'.drop B.length = t := by rw [← ht, List.drop_left]
      rw [hdrop] at hm
      exact ⟨s, t, by rw [hsplit, ← ht, List.append_assoc], hne, hns, (ih t).mp hm⟩
    · rintro ⟨s, t, hsplit, hne, hns, hspec⟩
      refine ⟨B ++ t, mem_nonSlashSplits.mpr ⟨s, by rw [hsplit, List.append_assoc], hne, hns⟩, ?_⟩
      rw [Bool.and_eq_true]
      refine ⟨List.isPrefixOf_iff_prefix.mpr ⟨t, rfl⟩, ?_⟩
      rw [List.drop_left]
      exact (ih t).mpr hspec

/-- A pattern with no `*` splits into the single chunk equal to itself. -/
theorem splitOnChar_of_not_contains {sep : Char} :
    ∀ l : List Char, l.contains sep = false → splitOnChar sep l = [l] := by
  intro l
  induction l with
  | nil => intro _; rfl
  | cons c cs ih =>
    intro h
    have hc : ¬ c = sep := by
      intro hc
      subst hc
      simp [List.contains_cons] at h
    have hcs : cs.contains sep = false := by
      simp only [List.contains_cons, Bool.or_eq_false_iff] at h
      exact h.2
    simp only [splitOnChar, if_neg hc, ih hcs]

/-- The code-side deny matcher agrees with the specification's wildcard
semantics, for every pattern and path. -/
theorem patternMatches_iff_spec (pattern path : String) :
    patternMatches pattern path = true ↔ SpecDenyMatch pattern path := by
  unfold patternMatches SpecDenyMatch
  by_cases hstar : pattern.data.contains '*' = true
  · rw [if_pos hstar, if_pos hstar]
    cases hsplit : splitOnChar '*' pattern.data with
    | nil => simp
    | cons c0 rest =>
      rw [Bool.and_eq_true, List.isPrefixOf_iff_prefix]
      constructor
      · rintro ⟨⟨t, ht⟩, hm⟩
        refine ⟨t, ht.symm, ?_⟩
        have hdrop : path.data.drop c0.length = t := by rw [← ht, List.drop_left]
        rw [hdrop] at hm
        exact (matchGaps_iff rest t).mp hm
      · rintro ⟨l', hl, hspec⟩
        refine ⟨⟨l', hl.symm⟩, ?_⟩
        rw [hl, List.drop_left]
        exact (matchGaps_iff rest l').mpr hspec
  · rw [if_neg hstar, if_neg hstar]
    rw [Bool.or_eq_true, beq_iff_eq, List.isPrefixOf_iff_prefix]
    have hdata : (pattern ++ "/").data = pattern.data ++ ['/'] := String.data_append ..
    constructor
    · rintro (h | ⟨t, ht⟩)
      · exact Or.inl h
      · refine Or.inr ⟨t, ?_⟩
        rw [← ht, hdata, List.append_assoc, List.singleton_append]
    · rintro (h | ⟨t, ht⟩)
      · exact Or.inl h
      · refine Or.inr ⟨t, ?_⟩
        rw [hdata, List.append_assoc, List.singleton_append]
        exact ht.symm

/-- C9 (deny-list matcher semantics): for every path and every pattern
of the deny-list, the matcher accepts iff the path matches the pattern
with each `*` standing for exactly one slash-free segment followed by
end-of-string or a `/` boundary (wildcard patterns), or the path equals
the pattern or begins with the pattern followed by `/` (literal
patterns). -/
theorem c9_deny_matcher_semantics (pattern path : String)
    (_hmem : pattern ∈ DRUPAL_ONLY_PATHS) :
    patternMatches pattern path = true ↔ SpecDenyMatch pattern path :=
  patternMatches_iff_spec pattern path

/-- Witness for C9 at a concrete pattern and path: the wildcard pattern
`/node/*/edit` accepts `/node/5/edit/extra` and the specification's
decomposition holds there. -/
theorem c9_deny_matcher_semantics_witness :
    SpecDenyMatch "/node/*/edit" "/node/5/edit/extra" :=
  (c9_deny_matcher_semantics "/node/*/edit" "/node/5/edit/extra" (by decide)).mp (by decide)

/-- Any accepted path extends the pattern's leading literal chunk (the
whole pattern for literal patterns, the part before the first `*` for
wildcard patterns). -/
theorem patternMatches_firstChunk_prefix (pattern path : String)
    (h : patternMatches pattern path = true) :
    (splitOnChar '*' pattern.data).headD [] <+: path.data := by
  unfold patternMatches at h
  by_cases hstar : pattern.data.contains '*' = true
  · rw [if_pos hstar] at h
    cases hsplit : splitOnChar '*' pattern.data with
    | nil => rw [hsplit] at h; cases h
    | cons c0 rest =>
      rw [hsplit] at h
      have h' : (c0.isPrefixOf path.data && matchGaps rest (path.data.drop c0.length)) = true := h
      rw [Bool.and_eq_true] at h'
      exact List.isPrefixOf_iff_prefix.mp h'.1
  · rw [if_neg hstar] at h
    have hsp : splitOnChar '*' pattern.data = [pattern.data] :=
      splitOnChar_of_not_contains _ (Bool.not_eq_true _ ▸ hstar)
    rw [hsp]
    rcases Bool.or_eq_true .. |>.mp h with h | h
    · rw [beq_iff_eq.mp h]
      exact List.prefix_refl _
    · have hp := List.isPrefixOf_iff_prefix.mp h
      have hself : pattern.data <+: (pattern ++ "/").data :=
        ⟨"/".data, (String.data_append ..).symm⟩
      exact hself.trans hp

/-- A path extending a literal chunk that is prefix-incomparable with
every Next.js-only prefix is not a Next.js-only path. -/
theorem isNextjsOnly_eq_false (path : String) (c : List Char) (hc : c <+: path.data)
    (H : ∀ p ∈ NEXTJS_ONLY_PATHS, ¬ p.data <+: c ∧ ¬ c <+: p.data) :
    isNextjsOnlyPath path = false := by
  rw [isNextjsOnlyPath, List.any_eq_false]
  intro p hp
  simp only [jsStartsWith]
  intro hpf
  have hpre := List.isPrefixOf_iff_prefix.mp hpf
  rcases List.prefix_or_prefix_of_prefix hpre hc with h | h
  · exact (H p hp).1 h
  · exact (H p hp).2 h

/-- A deny-listed path never matches the Next.js-only prefix list: every
deny-list pattern's leading chunk is prefix-incomparable with every
Next.js-only prefix. -/
theorem drupalOnly_not_nextjsOnly (path : String) (h : isDrupalOnlyPath path = true) :
    isNextjsOnlyPath path = false := by
  rw [isDrupalOnlyPath, List.any_eq_true] at h
  obtain ⟨pattern, hmem, hmatch⟩ := h
  have hpre := patternMatches_firstChunk_prefix pattern path hmatch
  fin_cases hmem <;> exact isNextjsOnly_eq_false path _ hpre (by decide)

/-- C5 (deny-list precedence): in unified (`nextjs_first`) mode, a path
matching the backend-only deny-list is handed to `proxyToDrupal`
immediately — the resolver call count is zero, whatever the resolver
would have returned or thrown. -/
theorem c5_deny_list_precedence (deploymentMode : Option String) (path : String)
    (resolver : ResolverCall)
    (hmode : deploymentMode = some "nextjs_first")
    (hdeny : isDrupalOnlyPath path = true) :
    proxyDispatch deploymentMode path resolver =
      { outcome := .toDrupal, resolverCalls := 0, log := [] } := by
  subst hmode
  have hnx := drupalOnly_not_nextjsOnly path hdeny
  simp only [proxyDispatch, hnx, hdeny]
  simp [jsOrStr]

/-- Witness for C5 at a concrete request: `/admin/content` is forwarded
with zero resolver calls even though the resolver (had it been called)
would have thrown. -/
theorem c5_deny_list_precedence_witness :
    proxyDispatch (some "nextjs_first") "/admin/content" .errOther =
      { outcome := .toDrupal, resolverCalls := 0, log := [] } :=
  c5_deny_list_precedence (some "nextjs_first") "/admin/content" .errOther rfl (by decide)

end JsonapiFrontend
